import Mathlib

/-!
Verification development for the `parse-comments` library (src/index.js).

The file shallowly embeds the `Comments` class of `src/index.js`: the
pipeline dispatcher (`run`, lines 208-225), the tag parser driver
(`parseTag`, lines 375-427), the tag loop (`parseTags`, lines 339-358),
the comment orchestrator (`parseComment`, lines 283-321) and the public
string-input guards (`parseInlineTags` / `parseType` / `parseParamType`,
lines 449-507).

The repository's `./lib` helpers (lib.parse.tag, lib.parse.type,
lib.parse.inline, lib.allows, lib.expects, lib.normalize, lib.validate,
lib.format) are not part of the sources; each corresponding definition
below is modelled from the specification and carries a doc comment
starting with "Modelled from the spec:".

JavaScript conventions used by the embedding:
  - fallible code returns `Except JsErr`;
  - a JS value that may be `undefined`/`null` is an `Option`;
  - the `tag.type` field distinguishes `undefined`, `null` and a parsed
    AST, because `src/index.js` line 407 explicitly assigns `null`;
  - handler tables hold Lean functions; a registered non-function value
    (possible in JS) is the `Handler.notCallable` constructor.
-/

namespace ParseComments

/-! ## Basic data model -/

/-- Error taxonomy of the library (spec section 7): `TypeError` for the
string guards, `TagSyntaxError` for a malformed tag line,
`TypeSyntaxError` for a malformed type literal. -/
inductive JsErr where
  | typeError (msg : String)
  | tagSyntaxError (msg : String)
  | typeSyntaxError (msg : String)

/-- Type AST (spec section 3, "Type (AST)"). -/
inductive TypeAST where
  | nameType (s : String)
  | unionType (ts : List TypeAST)
  | optionalType (t : TypeAST)
  | nullableType (t : TypeAST)
  | nonNullableType (t : TypeAST)
  | variadicType (t : TypeAST)
  | genericType (base : String) (params : List TypeAST)
  | recordType (fields : List (String × TypeAST))
  | functionType (params : List TypeAST) (ret : Option TypeAST) (thisBinding : Option TypeAST)

/-- The `type` field of a tag: JS `undefined` (never assigned), JS `null`
(assigned by `src/index.js` line 407), or a parsed AST. -/
inductive TypeField where
  | undefined
  | nullv
  | ast (t : TypeAST)

/-- JS truthiness of the `type` field: `undefined` and `null` are falsy
(`!tag.type` at `src/index.js` line 403). -/
def typeFalsy : TypeField → Bool
  | .undefined => true
  | .nullv => true
  | .ast _ => false

/-- An inline `\x7b@tag value\x7d` reference (spec section 3). -/
structure InlineRef where
  raw : String
  tag : String
  value : String

/-- Result of `lib.parse.inline`: the (possibly cleaned) text and the
extracted references (`src/index.js` lines 309-311 read `.value` and
`.tags`). -/
structure InlineResult where
  value : String
  tags : List InlineRef

/-- A raw tag token: `parseTag` (line 381) builds `\x7b raw: tok, value: tok \x7d`
from a plain string; the tokenizer produces equivalent records. -/
structure TagTok where
  raw : String
  value : String

/-- A parsed tag (spec section 3, "Tag"). -/
structure Tag where
  title : String := ""
  rawType : Option String := none
  type : TypeField := .undefined
  name : Option String := none
  description : String := ""
  inlineTags : List InlineRef := []
  raw : Option TagTok := none

/-! ## Pipeline dispatcher (`run`, src/index.js lines 208-225) -/

/-- A node handed to the dispatcher: in `run` only `node.type` is
inspected; the payload fields stand for the rest of the object. -/
structure Node where
  type : String
  name : String := ""
  value : String := ""

/-- A value registered in a `before`/`after` table.  JS allows arbitrary
values; `run` (line 215) checks `typeof fn !== 'function'` at invocation
time.  A callable handler may return a replacement node or a falsy value. -/
inductive Handler where
  | callable (f : Node → Option Node)
  | notCallable (shown : String)

/-- Whether a registered handler is callable (`typeof fn === 'function'`). -/
def Handler.isCallable : Handler → Bool
  | .callable _ => true
  | .notCallable _ => false

/-- A dispatcher phase: `run` is invoked with `'before'` or `'after'`. -/
inductive Phase where
  | before
  | after

/-- The `this.plugins.before` / `this.plugins.after` tables: ordered
handler lists per node type (registration order, appended by
`before()` / `after()`, lines 140-198). -/
structure Plugins where
  before : String → List Handler := fun _ => []
  after : String → List Handler := fun _ => []

/-- The table selected by `this.plugins[type]` for a phase. -/
def Plugins.get (p : Plugins) : Phase → String → List Handler
  | .before => p.before
  | .after => p.after

/-- The error thrown by `run` (lines 216-219): a `TypeError` carrying
`err.node` and `err.type` (the phase). -/
structure RunError where
  node : Node
  phase : Phase
  msg : String

/-- The loop body of `run` (lines 214-222): each handler receives the
node produced by the previous one; a falsy return keeps the node
(`node = fn.call(compiler, node) || node`); a non-function entry throws. -/
def runChain (phase : Phase) : Node → List Handler → Except RunError Node
  | node, [] => .ok node
  | node, .notCallable shown :: _ =>
      .error ⟨node, phase, "expected plugin to be a function:" ++ shown⟩
  | node, .callable f :: rest => runChain phase ((f node).getD node) rest

/-- Translation of `run(type, compiler)` (src/index.js lines 208-225):
returns the composed function over the handlers registered for the
node's type (`plugins[node.type] || []`).  The `compiler` argument only
provides the `this` binding of each handler and has no counterpart in a
pure model. -/
def run (phase : Phase) (p : Plugins) : Node → Except RunError Node :=
  fun node => runChain phase node (p.get phase node.type)

/-! ## Dispatcher theorems (claims C4 and C5) -/

theorem runChain_error_of_notCallable (phase : Phase) :
    ∀ (fns : List Handler) (node : Node),
      (∃ h ∈ fns, h.isCallable = false) →
      ∃ e, runChain phase node fns = .error e ∧ e.phase = phase := by
  intro fns
  induction fns with
  | nil =>
      intro node hmem
      rcases hmem with ⟨h, hm, _⟩
      exact absurd hm (List.not_mem_nil h)
  | cons hd rest ih =>
      intro node hmem
      cases hd with
      | notCallable shown =>
          exact ⟨⟨node, phase, "expected plugin to be a function:" ++ shown⟩, rfl, rfl⟩
      | callable f =>
          rcases hmem with ⟨h, hm, hnc⟩
          rcases List.mem_cons.mp hm with heq | hrest
          · rw [heq] at hnc
            exact absurd hnc (by simp [Handler.isCallable])
          · exact ih ((f node).getD node) ⟨h, hrest, hnc⟩

/-- C4: if the handler table for a node's type contains a registered
value that is not callable, the composed function returned by `run`
throws (returns an error) carrying a node and the offending phase.
`run` never consults the `strict` option (it takes no options at all),
so the error cannot be swallowed by any strict setting. -/
theorem run_not_callable_fatal (phase : Phase) (p : Plugins) (node : Node)
    (h : ∃ hd ∈ p.get phase node.type, hd.isCallable = false) :
    ∃ e, run phase p node = .error e ∧ e.phase = phase :=
  runChain_error_of_notCallable phase (p.get phase node.type) node h

/-- Concrete plugin table used to exercise the dispatcher theorems. -/
def pluginsBad : Plugins :=
  { before := fun t =>
      if t = "param" then
        [Handler.callable (fun n => some { n with name := n.name ++ "!" }),
         Handler.notCallable "42"]
      else [] }

/-- Witness for C4: a table whose `param` chain holds the non-function
value `42` makes `run` throw in the `before` phase. -/
theorem run_not_callable_fatal_witness :
    ∃ e, run Phase.before pluginsBad ⟨"param", "x", ""⟩ = .error e ∧
      e.phase = Phase.before :=
  run_not_callable_fatal Phase.before pluginsBad ⟨"param", "x", ""⟩
    ⟨Handler.notCallable "42",
      List.Mem.tail _ (List.Mem.head _), rfl⟩

theorem runChain_all_callable (phase : Phase) :
    ∀ (gs : List (Node → Option Node)) (node : Node),
      runChain phase node (gs.map Handler.callable) =
        .ok (gs.foldl (fun n g => (g n).getD n) node) := by
  intro gs
  induction gs with
  | nil => intro node; rfl
  | cons g rest ih =>
      intro node
      simpa [runChain, List.map_cons, List.foldl_cons] using ih ((g node).getD node)

/-- C5: for every phase and node, the function returned by `run` applies
exactly the handlers registered for that node's type, in registration
order, each receiving the node produced by the previous handler; a
handler returning a falsy result leaves the node unchanged (`getD`), and
an empty registration list returns the node unchanged (`foldl` over `[]`). -/
theorem run_applies_registered_in_order (phase : Phase) (p : Plugins)
    (node : Node) (gs : List (Node → Option Node))
    (h : p.get phase node.type = gs.map Handler.callable) :
    run phase p node = .ok (gs.foldl (fun n g => (g n).getD n) node) := by
  unfold run
  rw [h]
  exact runChain_all_callable phase gs node

/-! ## Options and parse overrides -/

/-- An extracted comment block as handed to `parseComment` (object
input; the fields the embedded code reads). -/
structure CommentIn where
  value : String

/-- The output of the external tokenizer (spec section 6,
"Tokenization"): description, raw tag lines, examples, footer. -/
structure Tok where
  description : String := ""
  tags : List TagTok := []
  examples : List String := []
  footer : String := ""

/-- The comment object after `Object.assign(\x7b\x7d, comment, tok)`
(`src/index.js` line 297), before its `tags` field is replaced by the
parsed tags. -/
structure CommentTok where
  value : String
  description : String
  rawTags : List TagTok
  examples : List String
  footer : String

/-- The final comment node. -/
structure Comment where
  value : String
  description : String
  tags : List Tag
  inlineTags : List InlineRef
  examples : List String
  footer : String

/-- The per-node-type parser overrides: the keys of
`this.plugins.middleware` merged with `opts.parse` that the embedded
code consults (`parsers.comment`, `parsers.tag`, `parsers.parseTags`,
`parsers.inlineTag`, `parsers.type`, `parsers.paramType`).  In JS every
such handler additionally receives the merged options object; a Lean
handler can close over any data it needs, so that argument adds nothing
to a pure model and is omitted to keep the option record non-recursive. -/
structure ParseOverrides where
  comment : Option (CommentIn → Comment) := none
  tag : Option (String → Option Tag) := none
  parseTags : Option (CommentTok → List Tag) := none
  inlineTag : Option (String → InlineResult) := none
  type : Option (String → Tag → TypeAST) := none
  paramType : Option (String → String) := none

/-- An options object, per-key (only the keys the embedded code reads).
Every field is optional because `Object.assign` merges options objects
key by key (`src/index.js` lines 284, 340, 376, 454, 483, 499). -/
structure OptsIn where
  strict : Option Bool := none
  format : Option Bool := none
  stripStars : Option Bool := none
  closedVocabulary : Option Bool := none
  parse : Option ParseOverrides := none

/-- JS `a !== undefined ? a : b` for one `Object.assign` key. -/
def oget {α : Type} (overlay base : Option α) : Option α :=
  match overlay with
  | some x => some x
  | none => base

/-- `Object.assign(\x7b\x7d, this.options, options)`: the call-site options
override the constructor options key by key. -/
def mergeOpts (base overlay : OptsIn) : OptsIn :=
  { strict := oget overlay.strict base.strict
    format := oget overlay.format base.format
    stripStars := oget overlay.stripStars base.stripStars
    closedVocabulary := oget overlay.closedVocabulary base.closedVocabulary
    parse := oget overlay.parse base.parse }

/-- `Object.assign(\x7b\x7d, this.plugins.middleware, opts.parse)`
(`src/index.js` lines 285, 341, 377, 455, 484, 500). -/
def mergeParsers (mw : ParseOverrides) (po : Option ParseOverrides) : ParseOverrides :=
  match po with
  | none => mw
  | some p =>
      { comment := oget p.comment mw.comment
        tag := oget p.tag mw.tag
        parseTags := oget p.parseTags mw.parseTags
        inlineTag := oget p.inlineTag mw.inlineTag
        type := oget p.type mw.type
        paramType := oget p.paramType mw.paramType }

/-! ## Modelled lib helpers

The repository's `./lib` directory is not among the sources; the
definitions in this section are modelled from the specification
(sections 4.1-4.4) and are marked as such. -/

/-- Whitespace test used by the modelled scanners. -/
def isWs (c : Char) : Bool :=
  c = ' ' ∨ c = '\t' ∨ c = '\n' ∨ c = '\r'

/-- Drop leading whitespace. -/
def dropWs (cs : List Char) : List Char :=
  cs.dropWhile isWs

/-- Take the next whitespace-delimited word. -/
def takeWord (cs : List Char) : List Char :=
  cs.takeWhile (fun c => !(isWs c))

/-- Modelled from the spec: the "type required" class of the
Normalization & Validation policy table (section 3 invariant and
section 4.4, "e.g. `param`, `returns`, `type`"), including the alias
spellings the table canonicalizes. -/
def typeRequiredB (s : String) : Bool :=
  s = "param" ∨ s = "arg" ∨ s = "argument" ∨ s = "property" ∨ s = "prop" ∨
    s = "returns" ∨ s = "return" ∨ s = "type" ∨ s = "typedef" ∨ s = "enum"

/-- Modelled from the spec: the "type forbidden" class of the policy
table (section 3 invariant and section 4.4, "e.g. `constructor`,
`private`"). -/
def typeForbiddenB (s : String) : Bool :=
  s = "constructor" ∨ s = "private" ∨ s = "protected" ∨ s = "public" ∨
    s = "readonly" ∨ s = "abstract" ∨ s = "global" ∨ s = "static" ∨
    s = "inner" ∨ s = "instance" ∨ s = "ignore"

/-- Modelled from the spec: titles whose definition expects a `name`
field (section 4.4, "a flag for whether a `name` field is expected";
section 4.2, a name is "recognized only for tag titles that accept a
name"). -/
def nameAcceptingB (s : String) : Bool :=
  s = "param" ∨ s = "arg" ∨ s = "argument" ∨ s = "property" ∨ s = "prop" ∨
    s = "typedef" ∨ s = "enum" ∨ s = "member" ∨ s = "module" ∨
    s = "namespace" ∨ s = "event" ∨ s = "const" ∨ s = "constant"

/-- Modelled from the spec: the closed alias table of section 4.4
("`arg`/`argument` maps to `param`, `return` maps to `returns`"). -/
def canonAlias (s : String) : String :=
  if s = "arg" ∨ s = "argument" then "param"
  else if s = "return" then "returns"
  else s

/-- Modelled from the spec: the titles known to the policy table
(union of the three classes, in canonical spelling), used when the
caller requests a closed vocabulary (section 4.4). -/
def knownTitleB (s : String) : Bool :=
  typeRequiredB s ∨ typeForbiddenB s ∨
    s = "description" ∨ s = "example" ∨ s = "deprecated" ∨ s = "see" ∨
    s = "since" ∨ s = "author" ∨ s = "name" ∨ s = "api" ∨
    s = "member" ∨ s = "module" ∨ s = "namespace" ∨ s = "event" ∨
    s = "const" ∨ s = "constant"

/-- Modelled from the spec: `lib.expects.type(tag)` — whether the tag's
type-requirement class demands a type (section 4.2 / section 3). -/
def expectsType (t : Tag) : Bool :=
  typeRequiredB t.title

/-- Title of a raw tag token: the word following the leading `@` of the
token's text (used by `lib.allows.type(tok)`, which receives the token,
not the parsed tag, at `src/index.js` line 395). -/
def titleOfTok (tok : TagTok) : String :=
  let cs := dropWs tok.value.data
  let cs := match cs with
    | '@' :: r => r
    | r => r
  String.mk (takeWord cs)

/-- Modelled from the spec: `lib.allows.type(tok)` — whether the token's
title class permits a bracketed type literal (section 4.4: the "type
forbidden" class does not). -/
def allowsType (tok : TagTok) : Bool :=
  !(typeForbiddenB (titleOfTok tok))

/-- Balanced-brace span starting at an opening brace: returns the span
(braces included) and the remainder, or `none` when unbalanced. -/
def spanBraces : List Char → Nat → List Char → Option (List Char × List Char)
  | [], _, _ => none
  | '{' :: r, d, acc => spanBraces r (d + 1) ('{' :: acc)
  | '}' :: r, 1, acc => some (('}' :: acc).reverse, r)
  | '}' :: r, Nat.succ (Nat.succ d), acc => spanBraces r (Nat.succ d) ('}' :: acc)
  | '}' :: _, 0, _ => none
  | c :: r, d, acc => spanBraces r d (c :: acc)

/-- Modelled from the spec: the field-splitting step of `lib.parse.tag`
(section 4.2) — build a tag record from the split fields.  A name token
is recognized only for titles that accept a name; the rest is the
description. -/
def mkRawTag (title : String) (rawType : Option String) (rest : List Char) : Tag :=
  if nameAcceptingB title then
    let nameCs := takeWord rest
    { title := title
      rawType := rawType
      name := if nameCs = [] then none else some (String.mk nameCs)
      description := String.mk (dropWs (rest.drop nameCs.length)) }
  else
    { title := title
      rawType := rawType
      name := none
      description := String.mk rest }

/-- Modelled from the spec: `lib.parse.tag(tok)` (section 4.2) — split
one raw tag line into title, optional bracketed type literal (the first
non-whitespace token after the title, recognized only as a single
balanced brace span; unbalanced braces fail with `TagSyntaxError`),
optional name and description. -/
def libParseTag (tok : TagTok) : Except JsErr Tag :=
  let cs := dropWs tok.value.data
  let cs := match cs with
    | '@' :: r => r
    | r => r
  let titleCs := takeWord cs
  let rest := dropWs (cs.drop titleCs.length)
  if titleCs = [] then .error (.tagSyntaxError "expected a tag title")
  else
    match rest with
    | '{' :: _ =>
        match spanBraces rest 0 [] with
        | none => .error (.tagSyntaxError "unbalanced braces in tag type")
        | some (span, rem) =>
            .ok (mkRawTag (String.mk titleCs) (some (String.mk span)) (dropWs rem))
    | _ => .ok (mkRawTag (String.mk titleCs) none rest)

/-- Opening brackets recognized by the modelled type grammar. -/
def isOpenBracket (c : Char) : Bool :=
  c = '(' ∨ c = '[' ∨ c = '{' ∨ c = '<'

/-- The closing bracket matching an opening one. -/
def closes (o c : Char) : Bool :=
  (o = '(' ∧ c = ')') ∨ (o = '[' ∧ c = ']') ∨ (o = '{' ∧ c = '}') ∨
    (o = '<' ∧ c = '>')

/-- Stack-based balance check over the four bracket kinds of the type
grammar. -/
def bracketsBalanced : List Char → List Char → Bool
  | [], stack => stack = []
  | c :: r, stack =>
      if isOpenBracket c then bracketsBalanced r (c :: stack)
      else if c = ')' ∨ c = ']' ∨ c = '}' ∨ c = '>' then
        match stack with
        | o :: s => closes o c && bracketsBalanced r s
        | [] => false
      else bracketsBalanced r stack

/-- Modifier characters of the type grammar (`?`, `!`, `=`, `.`,
whitespace): a literal made only of these has no base type. -/
def modifierChar (c : Char) : Bool :=
  c = '?' ∨ c = '!' ∨ c = '=' ∨ c = '.' ∨ isWs c

/-- Result object of `lib.parse.type`: `parseType` reads `ast.value`
(`src/index.js` line 491). -/
structure TypeRes where
  value : TypeAST

/-- Modelled from the spec: `lib.parse.type(str, tag, opts)` — the Type
Grammar Parser of section 4.1.  It fails with `TypeSyntaxError` exactly
on ill-formed literals (unbalanced brackets; a literal containing only
modifiers with no base type), an empty literal yields the empty record
type, and a well-formed literal yields an AST.  No claim in this
development depends on the AST's internal shape, so the success value is
represented at the granularity of a name node over the literal text. -/
def libParseType (s : String) (_tag : Tag) (_opts : OptsIn) : Except JsErr TypeRes :=
  let cs := s.data
  if bracketsBalanced cs [] = false then
    .error (.typeSyntaxError "unbalanced brackets in type")
  else if cs ≠ [] ∧ cs.all modifierChar then
    .error (.typeSyntaxError "type literal has no base type")
  else if dropWs cs = [] then .ok ⟨.recordType []⟩
  else .ok ⟨.nameType (String.mk (dropWs cs))⟩

/-- Collect the value of an inline reference up to the brace matching
the already-consumed opener, tolerating nested braces by depth
counting (spec section 4.3); `none` when unterminated. -/
def collectValue : List Char → Nat → List Char → Option (List Char × List Char)
  | [], _, _ => none
  | '}' :: r, 0, acc => some (acc.reverse, r)
  | '}' :: r, Nat.succ d, acc => collectValue r d ('}' :: acc)
  | '{' :: r, d, acc => collectValue r (d + 1) ('{' :: acc)
  | c :: r, d, acc => collectValue r d (c :: acc)

/-- Trim whitespace at both ends of a character list. -/
def trimWs (cs : List Char) : List Char :=
  (dropWs (dropWs cs).reverse).reverse

/-- One inline-reference match attempt: `rest` is the text after a
leading brace-and-at pair; returns the reference and the remaining
text, or `none` for a malformed (unterminated) marker. -/
def readRef (rest : List Char) : Option (InlineRef × List Char) :=
  let nameCs := rest.takeWhile (fun c => !(isWs c) && c ≠ '}')
  let afterName := rest.drop nameCs.length
  match collectValue afterName 0 [] with
  | none => none
  | some (valueCs, rem) =>
      some ({ raw := String.mk ('{' :: '@' :: rest.take (rest.length - rem.length))
              tag := String.mk nameCs
              value := String.mk (trimWs valueCs) }, rem)

/-- Fuel-indexed scan for inline references (the fuel bounds the number
of steps; it is instantiated with the text length). -/
def scanInlineGo : Nat → List Char → List InlineRef
  | 0, _ => []
  | _ + 1, [] => []
  | f + 1, '{' :: '@' :: rest =>
      match readRef rest with
      | some (ref, rem) => ref :: scanInlineGo f rem
      | none => scanInlineGo f ('@' :: rest)
  | f + 1, _ :: rest => scanInlineGo f rest

/-- Modelled from the spec: `lib.parse.inline(str, opts)` (section 4.3)
— a single left-to-right scan extracting brace-at reference markers with
balanced-brace matching; malformed markers produce no reference.  The
returned text equals the input unchanged (the default configuration: no
substitution is requested by any claim here). -/
def libParseInline (s : String) (_opts : OptsIn) : InlineResult :=
  { value := s, tags := scanInlineGo (s.data.length + 1) s.data }

/-- Modelled from the spec: `lib.normalize.examples(comment, opts)` —
examples are "passed through from tokenization, opaque to the core"
(section 3), so the model is the identity on the comment record. -/
def libNormalizeExamples (c : CommentTok) (_opts : OptsIn) : CommentTok :=
  c

/-- Modelled from the spec: `lib.normalize.tag(tag, opts)` (section 4.4)
— canonicalize the title through the closed alias table; the tag itself
is always retained at this step. -/
def libNormalizeTag (t : Tag) (_opts : OptsIn) : Option Tag :=
  some { t with title := canonAlias t.title }

/-- Modelled from the spec: `lib.validate.tag(tag, opts)` (section 4.4)
— a tag whose class forbids a type but which carries one has the type
discarded (set to the null marker) rather than erroring; an unknown
title is rejected only when the caller's configuration requests a
closed vocabulary, and passes through otherwise. -/
def libValidateTag (t : Tag) (opts : OptsIn) : Option Tag :=
  let t := if typeForbiddenB t.title ∧ typeFalsy t.type = false then
    { t with type := .nullv } else t
  if opts.closedVocabulary.getD false ∧ knownTitleB t.title = false then none
  else some t

/-- Modelled from the spec: `lib.format` — the optional post-processing
formatter applied when `opts.format === true` (section 6); it is opaque
to every claim here, so the model is the identity. -/
def libFormat (c : Comment) (_opts : OptsIn) : Comment :=
  c

/-! ## Public parsing methods (src/index.js lines 375-507) -/

/-- A JS argument that should be a string: either a string or some other
value (the guards at lines 450, 479 and 495 check `typeof`). -/
inductive StrOr where
  | str (s : String)
  | notStr (shown : String)

/-- Whether the argument is a string. -/
def StrOr.isStr : StrOr → Bool
  | .str _ => true
  | .notStr _ => false

/-- Translation of `parseInlineTags(str, options)` (src/index.js lines
449-462): non-string input throws `TypeError('expected a string')`
before anything else; then options and parser overrides are merged and
either the `inlineTag` override or `lib.parse.inline` runs. -/
def parseInlineTags (o0 : OptsIn) (mw : ParseOverrides) (v : StrOr)
    (options : Option OptsIn) : Except JsErr InlineResult :=
  match v with
  | .notStr _ => .error (.typeError "expected a string")
  | .str s =>
      let opts := mergeOpts o0 (options.getD {})
      let parsers := mergeParsers mw opts.parse
      match parsers.inlineTag with
      | some f => .ok (f s)
      | none => .ok (libParseInline s opts)

/-- Translation of `parseType(str, tag, options)` (src/index.js lines
478-492): non-string input throws `TypeError('expected a string')`
before anything else; then either the `type` override runs or
`lib.parse.type` runs and its `.value` is returned (errors from
`lib.parse.type` propagate: there is no catch here). -/
def parseType (o0 : OptsIn) (mw : ParseOverrides) (v : StrOr) (tag : Tag)
    (options : Option OptsIn) : Except JsErr TypeAST :=
  match v with
  | .notStr _ => .error (.typeError "expected a string")
  | .str s =>
      let opts := mergeOpts o0 (options.getD {})
      let parsers := mergeParsers mw opts.parse
      match parsers.type with
      | some f => .ok (f s tag)
      | none =>
          match libParseType s tag opts with
          | .error e => .error e
          | .ok ast => .ok ast.value

/-- Translation of `parseParamType(str, options)` (src/index.js lines
494-507): non-string input throws `TypeError('expected a string')`;
otherwise the `paramType` override runs or the string is returned
unchanged. -/
def parseParamType (o0 : OptsIn) (mw : ParseOverrides) (v : StrOr)
    (options : Option OptsIn) : Except JsErr String :=
  match v with
  | .notStr _ => .error (.typeError "expected a string")
  | .str s =>
      let opts := mergeOpts o0 (options.getD {})
      let parsers := mergeParsers mw opts.parse
      match parsers.paramType with
      | some f => .ok (f s)
      | none => .ok s

/-- The argument of `parseTag`: a raw string or a token record
(src/index.js lines 380-382 normalize a string to a record). -/
inductive TagArg where
  | str (s : String)
  | tok (t : TagTok)

/-- JS `rawType.slice(1, -1)`: the text between the braces. -/
def sliceInner (s : String) : String :=
  String.mk (s.data.drop 1).dropLast

/-- The tail of `parseTag` (src/index.js lines 410-426): normalize the
tag, validate it, and parse inline tags inside a non-empty description;
a falsy result of normalization or validation makes `parseTag` return
`null`. -/
def continueTag (o0 : OptsIn) (mw : ParseOverrides) (opts : OptsIn)
    (tag : Tag) : Except JsErr (Option Tag) :=
  match libNormalizeTag tag opts with
  | none => .ok none
  | some tag2 =>
      match libValidateTag tag2 opts with
      | none => .ok none
      | some tag3 =>
          if tag3.description ≠ "" then
            match parseInlineTags o0 mw (.str tag3.description) (some opts) with
            | .error e => .error e
            | .ok inl =>
                .ok (some { tag3 with description := inl.value, inlineTags := inl.tags })
          else .ok (some tag3)

/-- Translation of `parseTag(tok, options)` (src/index.js lines
375-427).  The structure follows the source line by line:
  - a string argument becomes `\x7b raw: tok, value: tok \x7d` (lines 380-382);
  - a `tag` parser override short-circuits everything (lines 384-386);
  - `lib.parse.tag` runs inside the only try/catch: on failure, strict
    mode rethrows and non-strict mode returns `null` (lines 388-393);
  - a tag carrying a raw type whose token is not allowed a type returns
    `null` (lines 395-397);
  - a present raw type is parsed through `this.parseType`, outside the
    try/catch, so failures there propagate (lines 399-401);
  - a tag expecting a type but lacking one returns `null` in strict
    mode and gets the null type marker otherwise (lines 403-408);
  - normalization, validation and inline-tag parsing follow
    (lines 410-426, `continueTag` above).
Line 391 tests `opts.strict` for truthiness while line 404 tests
`opts.strict === true`; for boolean-valued options the two coincide and
the model uses the resolved boolean for both. -/
def parseTag (o0 : OptsIn) (mw : ParseOverrides) (tokIn : TagArg)
    (options : Option OptsIn) : Except JsErr (Option Tag) :=
  let opts := mergeOpts o0 (options.getD {})
  let parsers := mergeParsers mw opts.parse
  let tok : TagTok := match tokIn with
    | .str s => { raw := s, value := s }
    | .tok t => t
  match parsers.tag with
  | some f => .ok (f tok.raw)
  | none =>
      match libParseTag tok with
      | .error err => if opts.strict.getD false = true then .error err else .ok none
      | .ok tag0 =>
          if tag0.rawType.isSome && !(allowsType tok) then .ok none
          else
            match (match tag0.rawType with
              | some rt =>
                  (parseType o0 mw (.str (sliceInner rt)) tag0 options).map
                    (fun t => { tag0 with type := .ast t })
              | none => .ok tag0) with
            | .error e => .error e
            | .ok tag1 =>
                if expectsType tag1 && typeFalsy tag1.type then
                  if opts.strict.getD false = true then .ok none
                  else continueTag o0 mw opts { tag1 with type := .nullv }
                else continueTag o0 mw opts tag1

/-- The loop of `parseTags` (src/index.js lines 348-357): each raw tag
goes through `parseTag` with the merged options; a `null` result is
omitted; a kept tag gets its `raw` token attached (`utils.define`); an
error from `parseTag` propagates (there is no catch in the loop). -/
def parseTagsGo (o0 : OptsIn) (mw : ParseOverrides) (opts : OptsIn) :
    List TagTok → Except JsErr (List Tag)
  | [] => .ok []
  | raw :: rest =>
      match parseTag o0 mw (.tok raw) (some opts) with
      | .error e => .error e
      | .ok none => parseTagsGo o0 mw opts rest
      | .ok (some t) =>
          match parseTagsGo o0 mw opts rest with
          | .error e => .error e
          | .ok ts => .ok ({ t with raw := some raw } :: ts)

/-- Translation of `parseTags(comment, options)` (src/index.js lines
339-358): a `parseTags` parser override short-circuits; otherwise the
loop above runs over the comment's raw tag lines. -/
def parseTags (o0 : OptsIn) (mw : ParseOverrides) (c : CommentTok)
    (options : Option OptsIn) : Except JsErr (List Tag) :=
  let opts := mergeOpts o0 (options.getD {})
  let parsers := mergeParsers mw opts.parse
  match parsers.parseTags with
  | some f => .ok (f c)
  | none => parseTagsGo o0 mw opts c.rawTags

/-! ## Comment orchestrator (src/index.js lines 240-321) -/

/-- One line of the `isComment` heuristic regex of `tokenize`
(src/index.js line 243): the line opens a block comment after optional
whitespace, or starts with a star, optional whitespace and an at-sign,
or starts with at least four spaces. -/
def isCommentLine (l : List Char) : Bool :=
  ((dropWs l).take 2 = ['/', '*']) ||
    (match l with
     | '*' :: r => (dropWs r).headI = '@'
     | _ => false) ||
    (l.take 4 = [' ', ' ', ' ', ' '])

/-- Split a character list at newlines. -/
def splitLines : List Char → List (List Char) → List Char → List (List Char)
  | [], acc, cur => (cur.reverse :: acc).reverse
  | '\n' :: r, acc, cur => splitLines r (cur.reverse :: acc) []
  | c :: r, acc, cur => splitLines r acc (c :: cur)

/-- The multiline `isComment` test of `tokenize` (src/index.js line
243): true when any line matches. -/
def isCommentStr (s : String) : Bool :=
  (splitLines s.data [] []).any isCommentLine

/-- The external collaborators of the orchestrator (spec section 6):
the tokenizer splitting one raw comment body into segments.  It is a
black box to the core and a parameter of the model. -/
structure Env where
  tokenize : String → OptsIn → Tok

/-- Translation of the `tokenize` method (src/index.js lines 240-248):
merge options, default `stripStars` to `false` when the non-empty input
does not look like a comment, and call the external tokenizer. -/
def tokenizeMeth (o0 : OptsIn) (env : Env) (input : String)
    (options : OptsIn) : Tok :=
  let opts := mergeOpts o0 options
  let opts := if opts.stripStars = none ∧ input ≠ "" ∧ isCommentStr input = false
    then { opts with stripStars := some false } else opts
  env.tokenize input opts

/-- A lifecycle notification: `this.emit('comment', comment)`
(src/index.js line 319). -/
inductive Event where
  | comment (c : Comment)

/-- `Object.assign(\x7b\x7d, comment, tok)` (src/index.js line 297): the
comment fields merged with the tokenizer output. -/
def assignTok (c : CommentIn) (t : Tok) : CommentTok :=
  { value := c.value
    description := t.description
    rawTags := t.tags
    examples := t.examples
    footer := t.footer }

/-- The comment node after line 299 replaced `comment.tags` with the
parsed tags. -/
def finishComment (ct : CommentTok) (tags : List Tag) : Comment :=
  { value := ct.value
    description := ct.description
    tags := tags
    inlineTags := []
    examples := ct.examples
    footer := ct.footer }

/-- The first stage of `parseComment` (src/index.js lines 287-305) for
an object input: either the `comment` parser override produces the node
directly, or the raw value is tokenized (the token is recorded in
`this.tokens`), examples are normalized and the tags parsed.  Returns
the node and the tokens pushed. -/
def stagedComment (o0 : OptsIn) (mw : ParseOverrides) (env : Env)
    (c : CommentIn) (options : Option OptsIn) :
    Except JsErr (Comment × List Tok) :=
  let opts := mergeOpts o0 (options.getD {})
  let parsers := mergeParsers mw opts.parse
  match parsers.comment with
  | some f => .ok (f c, [])
  | none =>
      let tok := tokenizeMeth o0 env c.value opts
      let ct := libNormalizeExamples (assignTok c tok) opts
      match parseTags o0 mw ct options with
      | .error e => .error e
      | .ok tags => .ok (finishComment ct tags, [tok])

/-- The inline-tag stage of `parseComment` (src/index.js lines
308-312): when the description is truthy, its inline tags are parsed
and the description replaced by the cleaned value. -/
def inlineStep (o0 : OptsIn) (mw : ParseOverrides) (opts : OptsIn)
    (c : Comment) : Except JsErr Comment :=
  if c.description ≠ "" then
    match parseInlineTags o0 mw (.str c.description) (some opts) with
    | .error e => .error e
    | .ok inl => .ok { c with description := inl.value, inlineTags := inl.tags }
  else .ok c

/-- Translation of `parseComment(comment, options)` (src/index.js lines
283-321) for an extracted comment object, as a function of the
constructor options and middleware table: the staged node goes through
the inline-tag stage, the optional formatter (`opts.format === true`,
lines 315-317), and the final node is emitted as a `comment` event and
returned (lines 319-320).  The returned triple carries the node, the
tokens pushed to `this.tokens`, and the emitted events in order. -/
def parseCommentCore (o0 : OptsIn) (mw : ParseOverrides) (env : Env)
    (c : CommentIn) (options : Option OptsIn) :
    Except JsErr (Comment × List Tok × List Event) :=
  let opts := mergeOpts o0 (options.getD {})
  match stagedComment o0 mw env c options with
  | .error e => .error e
  | .ok (c0, toks) =>
      match inlineStep o0 mw opts c0 with
      | .error e => .error e
      | .ok c1 =>
          let c2 := if opts.format.getD false = true then libFormat c1 opts else c1
          .ok (c2, toks, [Event.comment c2])

/-- The mutable state of a `Comments` instance that `parseComment`
reads or writes: constructor options, the middleware table, the
`before`/`after` plugin tables, and the `this.tokens` list it appends
to (src/index.js lines 25-41 and 295). -/
structure CState where
  options : OptsIn := {}
  middleware : ParseOverrides := {}
  plugins : Plugins := {}
  tokens : List Tok := []

/-- `parseComment` over the instance state: the core result plus the
`this.tokens.push(tok)` side effect (src/index.js line 295).  Note that
the state's `plugins` (before/after) tables are not an input of the
core: nothing in `parseComment` invokes `run`. -/
def parseComment (st : CState) (env : Env) (c : CommentIn)
    (options : Option OptsIn) : Except JsErr (Comment × CState × List Event) :=
  match parseCommentCore st.options st.middleware env c options with
  | .error e => .error e
  | .ok (com, toks, evs) => .ok (com, { st with tokens := st.tokens ++ toks }, evs)

/-! ## Helper lemmas about the tag parser -/

theorem mkRawTag_type (title : String) (rawType : Option String) (rest : List Char) :
    (mkRawTag title rawType rest).type = TypeField.undefined := by
  unfold mkRawTag
  split <;> rfl

/-- The modelled tag splitter never assigns the `type` field: a freshly
split tag has the JS `undefined` there. -/
theorem libParseTag_type (tok : TagTok) (tag : Tag)
    (h : libParseTag tok = .ok tag) : tag.type = TypeField.undefined := by
  simp only [libParseTag] at h
  split at h
  · simp at h
  · split at h
    · split at h
      · simp at h
      · injection h with h2
        subst h2
        apply mkRawTag_type
    · injection h with h2
      subst h2
      apply mkRawTag_type

/-! ## Claim C1: a type-forbidden tag carrying a type literal -/

/-- C1 (amended): when the tag line splits successfully, carries a
bracketed type literal, and its title class forbids a type
(`lib.allows.type(tok)` is false), `parseTag` REJECTS the tag — it
returns `null` (src/index.js lines 395-397) — in every mode; the
spurious type is not discarded with the tag retained. -/
theorem parseTag_forbidden_type_rejected (o0 : OptsIn) (mw : ParseOverrides)
    (tk : TagTok) (options : Option OptsIn) (tag0 : Tag)
    (hmw : (mergeParsers mw (mergeOpts o0 (options.getD {})).parse).tag = none)
    (hp : libParseTag tk = .ok tag0)
    (hraw : tag0.rawType.isSome = true)
    (hallow : allowsType tk = false) :
    parseTag o0 mw (.tok tk) options = .ok none := by
  simp only [parseTag]
  simp only [hmw, hp, hraw, hallow]
  rfl

/-- The `at-private brace-string` token of the spec's own example. -/
def tokPrivate : TagTok :=
  { raw := "@private {string}", value := "@private {string}" }

/-- Witness for the amended C1 theorem at the spec's example token. -/
theorem parseTag_forbidden_type_rejected_witness :
    parseTag {} {} (.tok tokPrivate) none = .ok none :=
  parseTag_forbidden_type_rejected {} {} tokPrivate none
    { title := "private", rawType := some "{string}" }
    rfl rfl rfl rfl

/-- Counterexample for C1 as stated: in default (non-strict) mode,
`parseTag("@private \x7bstring\x7d")` returns `null` — the tag is
rejected, not retained with a null type. -/
theorem parseTag_private_string_is_rejected :
    parseTag {} {} (.str "@private {string}") none = .ok none := rfl

/-! ## Claim C3: error propagation policy of parseTag -/

/-- C3 (amended): the try/catch of `parseTag` wraps only
`lib.parse.tag` (src/index.js lines 388-393).  Hence
(a) a tag-line split failure follows the strict policy: the error is
rethrown under `strict` and becomes `null` otherwise;
(b) a failure of the type-literal parse (`this.parseType`, line 400,
OUTSIDE the try/catch) propagates out of `parseTag` unconditionally —
it is not swallowed even in non-strict mode;
(c) an error escaping `parseTag` propagates through the `parseTags`
loop (lines 348-357 have no catch), and from there out of
`parseComment`. -/
theorem parseTag_strict_policy (o0 : OptsIn) (mw : ParseOverrides)
    (tk : TagTok) (options : Option OptsIn)
    (hmw : (mergeParsers mw (mergeOpts o0 (options.getD {})).parse).tag = none) :
    (∀ e, libParseTag tk = .error e →
      parseTag o0 mw (.tok tk) options =
        (if (mergeOpts o0 (options.getD {})).strict.getD false = true
          then .error e else .ok none)) ∧
    (∀ tag0 rt e, libParseTag tk = .ok tag0 → tag0.rawType = some rt →
      allowsType tk = true →
      (mergeParsers mw (mergeOpts o0 (options.getD {})).parse).type = none →
      libParseType (sliceInner rt) tag0 (mergeOpts o0 (options.getD {})) = .error e →
      parseTag o0 mw (.tok tk) options = .error e) ∧
    (∀ (ct : CommentTok) (rest : List TagTok) (e : JsErr),
      (mergeParsers mw (mergeOpts o0 (options.getD {})).parse).parseTags = none →
      ct.rawTags = tk :: rest →
      parseTag o0 mw (.tok tk) (some (mergeOpts o0 (options.getD {}))) = .error e →
      parseTags o0 mw ct options = .error e) := by
  refine ⟨?_, ?_, ?_⟩
  · intro e hp
    simp only [parseTag]
    simp only [hmw, hp]
  · intro tag0 rt e hp hrt hallow htm hpt
    simp only [parseTag]
    simp only [hmw, hp, hrt, Option.isSome_some, hallow, Bool.not_true,
      Bool.and_false]
    simp only [parseType, htm, hpt]
    rfl
  · intro ct rest e hpt hc hperr
    simp only [parseTags]
    simp only [hpt, hc, parseTagsGo, hperr]

/-- A tag token with unbalanced braces in its would-be type literal. -/
def tokBadBraces : TagTok :=
  { raw := "@x \x7b", value := "@x \x7b" }

/-- A tag token whose type literal has unbalanced angle brackets: the
tag line itself splits fine, the type grammar rejects the literal. -/
def tokBadType : TagTok :=
  { raw := "@param {Array<} x", value := "@param {Array<} x" }

/-- A tokenized comment carrying the bad-type tag line. -/
def ctBadType : CommentTok :=
  { value := "v", description := "", rawTags := [tokBadType], examples := [],
    footer := "" }

/-- Witness for the amended C3 theorem: (a) with `strict` the split
failure is rethrown and without it the tag becomes `null`; (b) the
type-literal failure escapes `parseTag` in default mode; (c) it also
escapes the `parseTags` loop. -/
theorem parseTag_strict_policy_witness :
    parseTag { strict := some true } {} (.tok tokBadBraces) none =
        .error (.tagSyntaxError "unbalanced braces in tag type") ∧
    parseTag {} {} (.tok tokBadBraces) none = .ok none ∧
    parseTags {} {} ctBadType none =
        .error (.typeSyntaxError "unbalanced brackets in type") := by
  refine ⟨?_, ?_, ?_⟩
  · exact (parseTag_strict_policy { strict := some true } {} tokBadBraces none rfl).1
      (.tagSyntaxError "unbalanced braces in tag type") rfl
  · exact (parseTag_strict_policy {} {} tokBadBraces none rfl).1
      (.tagSyntaxError "unbalanced braces in tag type") rfl
  · exact (parseTag_strict_policy {} {} tokBadType none rfl).2.2 ctBadType []
      (.typeSyntaxError "unbalanced brackets in type") rfl rfl
      ((parseTag_strict_policy {} {} tokBadType (some (mergeOpts {} {})) rfl).2.1
        { title := "param", rawType := some "{Array<}", name := some "x" }
        "{Array<}" (.typeSyntaxError "unbalanced brackets in type")
        rfl rfl rfl rfl rfl)

/-- Counterexample for C3 as stated: in default (non-strict) mode a
`TypeSyntaxError` raised while parsing the bracketed type of
`at-param brace-Array-angle brace x` is NOT swallowed: `parseTag`
propagates it instead of returning `null`. -/
theorem parseTag_nonstrict_type_error_escapes :
    parseTag {} {} (.str "@param {Array<} x") none =
      .error (.typeSyntaxError "unbalanced brackets in type") := rfl

/-! ## Claim C6: a type-required tag without a type literal -/

/-- Canonicalizing a title of the type-required class lands in the
policy table's known-title set. -/
theorem required_canon_known (s : String) (h : typeRequiredB s = true) :
    knownTitleB (canonAlias s) = true := by
  simp only [typeRequiredB, decide_eq_true_eq] at h
  rcases h with h|h|h|h|h|h|h|h|h|h <;> subst h <;> decide

/-- On a string argument `parseInlineTags` never throws: the guard only
rejects non-strings and both the override and the modelled scanner are
total. -/
theorem parseInlineTags_str_ne_error (o0 : OptsIn) (mw : ParseOverrides)
    (s : String) (options : Option OptsIn) (e : JsErr) :
    parseInlineTags o0 mw (.str s) options ≠ .error e := by
  simp only [parseInlineTags]
  split <;> simp

/-- Validation keeps a tag whose type field is falsy and whose title is
known to the policy table. -/
theorem libValidateTag_keeps (tag : Tag) (opts : OptsIn)
    (hfalsy : typeFalsy tag.type = true) (hknown : knownTitleB tag.title = true) :
    libValidateTag tag opts = some tag := by
  simp [libValidateTag, hfalsy, hknown]

/-- The normalize/validate/inline tail of `parseTag` keeps a tag whose
type was set to the null marker, and keeps the null marker on it. -/
theorem continueTag_keeps_null_type (o0 : OptsIn) (mw : ParseOverrides)
    (opts : OptsIn) (tag : Tag)
    (hknown : knownTitleB (canonAlias tag.title) = true)
    (htype : tag.type = TypeField.nullv) :
    ∃ t, continueTag o0 mw opts tag = .ok (some t) ∧
      t.type = TypeField.nullv := by
  simp only [continueTag, libNormalizeTag]
  rw [libValidateTag_keeps _ opts (by simp [htype, typeFalsy]) (by simpa using hknown)]
  split
  · rename_i heq
    simp at heq
  · rename_i tag3 heq
    injection heq with heq2
    subst heq2
    split
    · split
      · rename_i heq3
        exact absurd heq3 (parseInlineTags_str_ne_error _ _ _ _ _)
      · exact ⟨_, rfl, htype⟩
    · exact ⟨_, rfl, htype⟩

/-- C6: a tag whose class requires a type but whose line carries no
type literal is, in strict mode, rejected (`parseTag` returns `null`
rather than raising, src/index.js lines 404-405), and in non-strict
mode retained with its `type` set to the null marker (line 407). -/
theorem parseTag_required_missing_type (o0 : OptsIn) (mw : ParseOverrides)
    (tk : TagTok) (options : Option OptsIn) (tag0 : Tag)
    (hmw : (mergeParsers mw (mergeOpts o0 (options.getD {})).parse).tag = none)
    (hp : libParseTag tk = .ok tag0)
    (hraw : tag0.rawType = none)
    (hexp : expectsType tag0 = true) :
    ((mergeOpts o0 (options.getD {})).strict.getD false = true →
      parseTag o0 mw (.tok tk) options = .ok none) ∧
    ((mergeOpts o0 (options.getD {})).strict.getD false = false →
      ∃ t, parseTag o0 mw (.tok tk) options = .ok (some t) ∧
        t.type = TypeField.nullv) := by
  have htype := libParseTag_type tk tag0 hp
  constructor
  · intro hstrict
    simp only [parseTag]
    simp only [hmw, hp, hraw, Option.isSome_none, Bool.false_and, hexp, htype,
      typeFalsy, hstrict]
    simp
  · intro hstrict
    simp only [parseTag]
    simp only [hmw, hp, hraw, Option.isSome_none, Bool.false_and, hexp, htype,
      typeFalsy, hstrict]
    simp only [Bool.false_eq_true, if_false, Bool.and_self, if_true]
    exact continueTag_keeps_null_type o0 mw _ _
      (by simpa using required_canon_known tag0.title hexp) rfl

/-- A `param` tag line with a name but no type literal. -/
def tokParamNoType : TagTok :=
  { raw := "@param x", value := "@param x" }

/-- Witness for C6: both modes at the concrete `param`-without-type
line — strict rejects (`null`), non-strict keeps the tag with the null
type marker. -/
theorem parseTag_required_missing_type_witness :
    parseTag { strict := some true } {} (.tok tokParamNoType) none = .ok none ∧
    ∃ t, parseTag {} {} (.tok tokParamNoType) none = .ok (some t) ∧
      t.type = TypeField.nullv :=
  ⟨(parseTag_required_missing_type { strict := some true } {} tokParamNoType none
      { title := "param", name := some "x" } rfl rfl rfl rfl).1 rfl,
    (parseTag_required_missing_type {} {} tokParamNoType none
      { title := "param", name := some "x" } rfl rfl rfl rfl).2 rfl⟩

/-! ## Claim C7: the tag list of a comment -/

theorem parseTagsGo_filter (o0 : OptsIn) (mw : ParseOverrides) (opts : OptsIn) :
    ∀ (l : List TagTok) (ts : List Tag),
      parseTagsGo o0 mw opts l = .ok ts →
      ts = l.filterMap (fun raw =>
        match parseTag o0 mw (.tok raw) (some opts) with
        | .ok (some t) => some { t with raw := some raw }
        | _ => none) := by
  intro l
  induction l with
  | nil =>
      intro ts h
      simp only [parseTagsGo] at h
      injection h with h2
      subst h2
      rfl
  | cons raw rest ih =>
      intro ts h
      simp only [parseTagsGo] at h
      cases hpt : parseTag o0 mw (.tok raw) (some opts) with
      | error e =>
          rw [hpt] at h
          simp at h
      | ok t? =>
          rw [hpt] at h
          cases t? with
          | none =>
              simp only [List.filterMap_cons, hpt]
              exact ih ts h
          | some t =>
              cases hgo : parseTagsGo o0 mw opts rest with
              | error e =>
                  rw [hgo] at h
                  simp at h
              | ok ts2 =>
                  rw [hgo] at h
                  injection h with h2
                  subst h2
                  simp only [List.filterMap_cons, hpt]
                  rw [ih ts2 hgo]

/-- C7: when the `parseTags` override is absent and the loop completes,
the produced tag list is exactly the raw tag lines whose individual
`parseTag` returned non-null, in source order (each kept tag carrying
its raw token); a comment with no raw tag lines yields the empty list. -/
theorem parseTags_exact (o0 : OptsIn) (mw : ParseOverrides) (c : CommentTok)
    (options : Option OptsIn)
    (hmw : (mergeParsers mw (mergeOpts o0 (options.getD {})).parse).parseTags = none) :
    (c.rawTags = [] → parseTags o0 mw c options = .ok []) ∧
    (∀ ts, parseTags o0 mw c options = .ok ts →
      ts = c.rawTags.filterMap (fun raw =>
        match parseTag o0 mw (.tok raw) (some (mergeOpts o0 (options.getD {}))) with
        | .ok (some t) => some { t with raw := some raw }
        | _ => none)) := by
  constructor
  · intro hc
    simp only [parseTags, hmw, hc, parseTagsGo]
  · intro ts h
    simp only [parseTags, hmw] at h
    exact parseTagsGo_filter o0 mw _ c.rawTags ts h

/-- A tokenized comment with no tag lines. -/
def ctNoTags : CommentTok :=
  { value := "v", description := "", rawTags := [], examples := [], footer := "" }

/-- A tokenized comment with one succeeding and one failing tag line. -/
def ctMixed : CommentTok :=
  { value := "v", description := "", rawTags := [tokParamNoType, tokBadBraces],
    examples := [], footer := "" }

/-- Witness for C7: the empty comment yields the empty tag list, and a
mixed comment (one good `param` line, one unbalanced-brace line) yields
exactly the filtered successes in order. -/
theorem parseTags_exact_witness :
    parseTags {} {} ctNoTags none = .ok [] ∧
    ∃ ts, parseTags {} {} ctMixed none = .ok ts ∧
      ts = ctMixed.rawTags.filterMap (fun raw =>
        match parseTag {} {} (.tok raw) (some (mergeOpts {} ({} : OptsIn))) with
        | .ok (some t) => some { t with raw := some raw }
        | _ => none) :=
  ⟨(parseTags_exact {} {} ctNoTags none rfl).1 rfl,
    ⟨_, rfl, (parseTags_exact {} {} ctMixed none rfl).2 _ rfl⟩⟩

/-! ## Claim C8: one lifecycle notification per parsed comment -/

/-- The success exit of `parseCommentCore` always pairs the returned
node with exactly the singleton event list carrying that node. -/
theorem parseCommentCore_events (o0 : OptsIn) (mw : ParseOverrides)
    (env : Env) (c : CommentIn) (options : Option OptsIn) (com : Comment)
    (toks : List Tok) (evs : List Event)
    (h : parseCommentCore o0 mw env c options = .ok (com, toks, evs)) :
    evs = [Event.comment com] := by
  simp only [parseCommentCore] at h
  split at h
  · simp at h
  · split at h
    · simp at h
    · simp only [Except.ok.injEq, Prod.mk.injEq] at h
      obtain ⟨rfl, -, rfl⟩ := h
      rfl

/-- C8: every successfully completed `parseComment` call emits exactly
one `comment` event, and it carries the same final node the call
returns (src/index.js lines 319-320: `this.emit('comment', comment);
return comment`). -/
theorem parseComment_emits_once (st : CState) (env : Env) (c : CommentIn)
    (options : Option OptsIn) (com : Comment) (st2 : CState) (evs : List Event)
    (h : parseComment st env c options = .ok (com, st2, evs)) :
    evs = [Event.comment com] := by
  simp only [parseComment] at h
  cases hc : parseCommentCore st.options st.middleware env c options with
  | error e =>
      rw [hc] at h
      simp at h
  | ok out =>
      obtain ⟨com0, toks0, evs0⟩ := out
      rw [hc] at h
      simp only [Except.ok.injEq, Prod.mk.injEq] at h
      obtain ⟨rfl, -, rfl⟩ := h
      exact parseCommentCore_events _ _ _ _ _ _ _ _ hc

/-- An environment whose tokenizer returns the empty segmentation. -/
def envBlank : Env :=
  { tokenize := fun _ _ => {} }

/-- The comment node produced from value `v` under `envBlank`. -/
def comBlankV : Comment :=
  { value := "v", description := "", tags := [], inlineTags := [],
    examples := [], footer := "" }

/-- The instance state after one blank parse: one token recorded. -/
def stAfterBlank : CState :=
  { tokens := [{}] }

/-- Witness for C8: the concrete blank parse returns the node together
with exactly its own `comment` event. -/
theorem parseComment_emits_once_witness :
    parseComment {} envBlank { value := "v" } none =
      .ok (comBlankV, stAfterBlank, [Event.comment comBlankV]) ∧
    [Event.comment comBlankV] = [Event.comment comBlankV] :=
  ⟨rfl, parseComment_emits_once {} envBlank { value := "v" } none comBlankV
    stAfterBlank [Event.comment comBlankV] rfl⟩

/-! ## Claim C9: determinism across repeated parses -/

/-- C9: a successful parse can be replayed on the state it produced
(the only state change is the appended `this.tokens` entry, which the
parse never reads): the second call yields a structurally identical
comment node and event list. -/
theorem parseComment_deterministic (st : CState) (env : Env) (c : CommentIn)
    (options : Option OptsIn) (com : Comment) (st1 : CState) (evs : List Event)
    (h : parseComment st env c options = .ok (com, st1, evs)) :
    ∃ st2, parseComment st1 env c options = .ok (com, st2, evs) := by
  simp only [parseComment] at h ⊢
  cases hc : parseCommentCore st.options st.middleware env c options with
  | error e =>
      rw [hc] at h
      simp at h
  | ok out =>
      obtain ⟨com0, toks0, evs0⟩ := out
      rw [hc] at h
      simp only [Except.ok.injEq, Prod.mk.injEq] at h
      obtain ⟨rfl, hst, rfl⟩ := h
      subst hst
      dsimp only
      rw [hc]
      exact ⟨_, rfl⟩

/-- Witness for C9: replaying the blank parse on the state it produced
returns the same node and events. -/
theorem parseComment_deterministic_witness :
    ∃ st2, parseComment stAfterBlank envBlank { value := "v" } none =
      .ok (comBlankV, st2, [Event.comment comBlankV]) :=
  parseComment_deterministic {} envBlank { value := "v" } none comBlankV
    stAfterBlank [Event.comment comBlankV] rfl

/-! ## Claim C10: the string guards -/

/-- C10: on a non-string argument, `parseInlineTags`, `parseType` and
`parseParamType` all throw `TypeError('expected a string')`, whatever
the constructor options, middleware table, call-site options or strict
setting — the guard sits before any configuration or override is
consulted (src/index.js lines 450-452, 479-481, 495-497). -/
theorem string_guards_reject_nonstrings (v : StrOr) (hv : v.isStr = false)
    (o0 : OptsIn) (mw : ParseOverrides) (tag : Tag) (options : Option OptsIn) :
    parseInlineTags o0 mw v options = .error (.typeError "expected a string") ∧
    parseType o0 mw v tag options = .error (.typeError "expected a string") ∧
    parseParamType o0 mw v options = .error (.typeError "expected a string") := by
  cases v with
  | str s => simp [StrOr.isStr] at hv
  | notStr shown => exact ⟨rfl, rfl, rfl⟩

/-- Witness for C10: the three guards at a number argument, under a
non-default configuration (strict and a registered `type` override), to
exercise that neither is consulted. -/
theorem string_guards_reject_nonstrings_witness :
    parseInlineTags { strict := some true }
        { type := some (fun _ _ => .nameType "n") } (.notStr "42") none =
      .error (.typeError "expected a string") ∧
    parseType { strict := some true }
        { type := some (fun _ _ => .nameType "n") } (.notStr "42") {} none =
      .error (.typeError "expected a string") ∧
    parseParamType { strict := some true }
        { type := some (fun _ _ => .nameType "n") } (.notStr "42") none =
      .error (.typeError "expected a string") :=
  string_guards_reject_nonstrings (.notStr "42") rfl
    { strict := some true } { type := some (fun _ _ => .nameType "n") } {} none

/-! ## Claim C2: parseComment and the before/after chains -/

/-- The observable outcome of a `parseComment` call: the node, the
token bookkeeping and the emitted events (the resulting state's
`plugins` field is dropped because it trivially echoes the input). -/
def resultView (r : Except JsErr (Comment × CState × List Event)) :
    Except JsErr (Comment × List Tok × List Event) :=
  r.map (fun x => (x.1, x.2.1.tokens, x.2.2))

/-- C2 (amended): `parseComment` never invokes the dispatcher — no call
to `run` occurs anywhere on the parse path (src/index.js lines 283-321)
— so its entire observable outcome is unchanged under arbitrary
modification of the `before`/`after` registration tables.  Registered
hooks would only execute if external code applied `run` itself. -/
theorem parseComment_ignores_hooks (st st2 : CState) (env : Env)
    (c : CommentIn) (options : Option OptsIn)
    (h1 : st.options = st2.options) (h2 : st.middleware = st2.middleware)
    (h3 : st.tokens = st2.tokens) :
    resultView (parseComment st env c options) =
      resultView (parseComment st2 env c options) := by
  simp only [parseComment, h1, h2]
  cases parseCommentCore st2.options st2.middleware env c options with
  | error e => rfl
  | ok out =>
      obtain ⟨com, toks, evs⟩ := out
      simp only [resultView, h3]
      rfl

/-- An environment whose tokenizer yields one `param` tag line. -/
def envParam : Env :=
  { tokenize := fun _ _ =>
      { tags := [{ raw := "@param {String} x The x",
                   value := "@param {String} x The x" }] } }

/-- A state with a `before` hook registered for `param` nodes that
uppercases the node name. -/
def stHook : CState :=
  { plugins := { before := fun t =>
      if t = "param" then
        [Handler.callable (fun n => some { n with name := n.name.toUpper })]
      else [] } }

/-- Witness for the amended C2 theorem: the default state and the
hook-carrying state produce identical observable outcomes. -/
theorem parseComment_ignores_hooks_witness :
    resultView (parseComment {} envParam { value := "v" } none) =
      resultView (parseComment stHook envParam { value := "v" } none) :=
  parseComment_ignores_hooks {} stHook envParam { value := "v" } none rfl rfl rfl

/-- Counterexample for C2 as stated: with an uppercasing `before`
handler registered for `param`, parsing a comment with one `at-param`
tag yields a tag whose name is still the lowercase `x` — the hook was
never applied. -/
theorem parseComment_hook_not_applied :
    (match parseComment stHook envParam { value := "v" } none with
      | .ok r => r.1.tags.map Tag.name
      | .error _ => []) = [some "x"] := rfl

/-- First concrete chain member: prepends to the name. -/
def hookA : Node → Option Node := fun n => some { n with name := "A" ++ n.name }

/-- Second concrete chain member: returns a falsy value (identity). -/
def hookB : Node → Option Node := fun _ => none

/-- Third concrete chain member: appends to the name. -/
def hookC : Node → Option Node := fun n => some { n with name := n.name ++ "B" }

/-- Concrete plugin table with three callable handlers for `param`. -/
def pluginsGood : Plugins :=
  { before := fun t =>
      if t = "param" then [hookA, hookB, hookC].map Handler.callable else [] }

/-- Witness for C5: the chain `[prepend A, falsy, append B]` maps the
node named `x` to the node named `AxB`: the falsy handler is an identity
and the other two compose in registration order. -/
theorem run_applies_registered_in_order_witness :
    run Phase.before pluginsGood ⟨"param", "x", ""⟩ =
      .ok ⟨"param", "AxB", ""⟩ :=
  run_applies_registered_in_order Phase.before pluginsGood ⟨"param", "x", ""⟩
    [hookA, hookB, hookC] rfl

end ParseComments
